import Mathlib

/-!
Shallow embedding of the wallet-service transactional ledger core
(`src/config/database.js`, `src/controllers/walletController.js`, the SQL
schema and the Joi validation schemas), together with proofs settling the
frozen claims about its natural-language specification.

Modelling conventions:
* UUIDs are modelled as `Nat`; their ascending canonical (byte/lexicographic)
  order is modelled by `≤` on `Nat`.
* SQL `NUMERIC(20,8)` amounts and balances are modelled as exact rationals
  `ℚ`; the JavaScript binary-float deviation of `parseFloat`-based arithmetic
  is modelled separately (see `round64` and `fadd` below).
* Timestamps (`NOW()`, `created_at`, `expires_at`) are modelled as `Nat`
  seconds; the 24 h idempotency retention is `86400`.
* `uuidv4()` generation and `NOW()` are nondeterministic in the source, so
  the flow functions take the freshly generated transaction id and the
  current time as explicit parameters.
* Thrown JS errors are modelled as `Except Err`; an error return carries no
  database, which models the transaction rollback performed by
  `withTransaction` (no partial state survives an error).
* Error messages are elided; the observable `code` and `statusCode`
  properties are kept.
-/

/-- `account_type` enum of the schema: `SYSTEM` or `USER`. -/
inductive AccountType where
  | SYSTEM
  | USER
deriving DecidableEq

/-- `transaction_type` enum of the schema. -/
inductive TxType where
  | TOP_UP
  | BONUS
  | SPEND
deriving DecidableEq

/-- A row of the `accounts` table. -/
structure Account where
  id : Nat
  external_id : Option String
  account_type : AccountType
  name : String
  asset_type_id : Nat
  is_active : Bool
deriving DecidableEq

/-- A row of the `account_balances` materialized cache. -/
structure BalanceRow where
  account_id : Nat
  asset_type_id : Nat
  balance : ℚ
  version : Nat
  updated_at : Nat
deriving DecidableEq

/-- A result row of the `accounts ⋈ account_balances` queries used by the
account resolver (`SELECT a.*, ab.balance, ab.version`). -/
structure AccountRow extends Account where
  balance : ℚ
  version : Nat
deriving DecidableEq

/-- A row of the `transactions` table. -/
structure Txn where
  id : Nat
  type : TxType
  reference_id : String
  description : String
  metadata : String
  created_at : Nat
deriving DecidableEq

/-- A row of the `ledger_entries` table. -/
structure LedgerEntry where
  transaction_id : Nat
  account_id : Nat
  asset_type_id : Nat
  amount : ℚ
  balance_after : ℚ
  created_at : Nat
deriving DecidableEq

/-- The response body built by the mutating flows. A fresh execution has no
`idempotent` property on the JS object, modelled as `idempotent := false`;
a replay sets it to `true`. -/
structure Response where
  transactionId : Nat
  referenceId : String
  type : TxType
  accountId : Nat
  amount : ℚ
  balanceAfter : ℚ
  description : String
  createdAt : Nat
  idempotent : Bool
deriving DecidableEq

/-- A row of the `idempotency_keys` table. -/
structure IdemRecord where
  key : String
  response_status : Nat
  response_body : Response
  created_at : Nat
  expires_at : Nat
deriving DecidableEq

/-- The relational store visible to the core, plus a log (`locks`) of the
balance-row locks acquired by `FOR UPDATE OF ab`, in acquisition order. -/
structure Db where
  accounts : List Account
  account_balances : List BalanceRow
  transactions : List Txn
  ledger_entries : List LedgerEntry
  idempotency_keys : List IdemRecord
  locks : List Nat
deriving DecidableEq

/-- A thrown application/database error: its `code` property (absent on the
plain `statusCode`-only errors the source also throws) and its `statusCode`
property (absent on raw PostgreSQL errors such as `23505`). -/
structure Err where
  code : Option String
  statusCode : Option Nat
deriving DecidableEq

/-- Decidable equality of `Except` results, so concrete runs of the model
can be checked by `decide`. -/
instance [DecidableEq ε] [DecidableEq α] : DecidableEq (Except ε α) := fun x y =>
  match x, y with
  | .ok a, .ok b =>
    if h : a = b then .isTrue (by rw [h]) else .isFalse (by simp [h])
  | .error a, .error b =>
    if h : a = b then .isTrue (by rw [h]) else .isFalse (by simp [h])
  | .ok _, .error _ => .isFalse (by simp)
  | .error _, .ok _ => .isFalse (by simp)

/-- Exact rational addition, written with the reducible `mkRat` so that
concrete runs of the model evaluate inside the kernel; provably equal to
`+` on `ℚ` (`qadd_eq`). -/
def qadd (a b : ℚ) : ℚ := mkRat (a.num * b.den + b.num * a.den) (a.den * b.den)

/-- Exact rational subtraction; provably equal to `-` on `ℚ` (`qsub_eq`). -/
def qsub (a b : ℚ) : ℚ := mkRat (a.num * b.den - b.num * a.den) (a.den * b.den)

/-- Exact rational multiplication; provably equal to `*` on `ℚ`
(`qmul_eq`). -/
def qmul (a b : ℚ) : ℚ := mkRat (a.num * b.num) (a.den * b.den)

/-- Exact rational absolute value; provably equal to `|·|` on `ℚ`
(`qabs_eq`). -/
def qabs (q : ℚ) : ℚ := if q < 0 then -q else q

/-- Exact sum of a list of rationals; provably equal to `List.sum`
(`qsum_eq`). -/
def qsum (l : List ℚ) : ℚ := l.foldr qadd 0

/-- `JOIN account_balances ab ON ab.account_id = a.id`: attach the balance
row of an account, when present. -/
def joinBalance (db : Db) (a : Account) : Option AccountRow :=
  (db.account_balances.find? (fun b => b.account_id == a.id)).map
    (fun b => { toAccount := a, balance := b.balance, version := b.version })

/-- `getAccountByExternalId`: resolve an active account by its well-known
external id, joined with its balance row; no lock taken. -/
def getAccountByExternalId (db : Db) (externalId : String) : Option AccountRow :=
  (db.accounts.find? (fun a => a.external_id == some externalId && a.is_active)).bind
    (joinBalance db)

/-- `getAccountsWithLock`: deduplicate and sort the requested ids
(`[...new Set(accountIds)].sort()`), return the active matching accounts
joined with their balance rows in ascending id order
(`ORDER BY a.id ASC FOR UPDATE OF ab`), and log the row locks acquired,
in that order. -/
def getAccountsWithLock (db : Db) (accountIds : List Nat) : List AccountRow × Db :=
  let sortedIds := (accountIds.dedup).insertionSort (fun a b => a ≤ b)
  let rows :=
    ((db.accounts.filter (fun a => a.is_active && sortedIds.contains a.id)).filterMap
      (joinBalance db)).insertionSort (fun x y => x.id ≤ y.id)
  (rows, { db with locks := db.locks ++ rows.map (fun r => r.id) })

/-- `UPDATE account_balances SET balance = $2, version = version + 1,
updated_at = NOW() WHERE account_id = $1`. -/
def updateBalance (db : Db) (accountId : Nat) (newBal : ℚ) (now : Nat) : Db :=
  { db with account_balances :=
      db.account_balances.map (fun b =>
        if b.account_id = accountId then
          { b with balance := newBal, version := b.version + 1, updated_at := now }
        else b) }

/-- The debit-side journal entry inserted by `postDoubleEntry`
(positive amount, `balance_after` = debit balance minus amount). -/
def mkDebitEntry (transactionId : Nat) (debitAccount : AccountRow) (amount : ℚ)
    (assetTypeId now : Nat) : LedgerEntry :=
  { transaction_id := transactionId, account_id := debitAccount.id,
    asset_type_id := assetTypeId, amount := amount,
    balance_after := qsub debitAccount.balance amount, created_at := now }

/-- The credit-side journal entry inserted by `postDoubleEntry`
(negated amount, `balance_after` = credit balance plus amount). -/
def mkCreditEntry (transactionId : Nat) (creditAccount : AccountRow) (amount : ℚ)
    (assetTypeId now : Nat) : LedgerEntry :=
  { transaction_id := transactionId, account_id := creditAccount.id,
    asset_type_id := assetTypeId, amount := -amount,
    balance_after := qadd creditAccount.balance amount, created_at := now }

/-- `postDoubleEntry`: the posting engine. Computes the two post-balances,
rejects a USER debit account that would go negative
(`INSUFFICIENT_BALANCE`, 422), inserts the debit and credit journal
entries, updates both cached balances (bumping versions), and returns
`{ debitNewBalance, creditNewBalance }`. -/
def postDoubleEntry (db : Db) (transactionId : Nat)
    (debitAccount creditAccount : AccountRow) (amount : ℚ)
    (assetTypeId now : Nat) : Except Err ((ℚ × ℚ) × Db) :=
  let debitNewBalance := qsub debitAccount.balance amount
  let creditNewBalance := qadd creditAccount.balance amount
  if debitAccount.account_type = AccountType.USER ∧ debitNewBalance < 0 then
    .error { code := some "INSUFFICIENT_BALANCE", statusCode := some 422 }
  else
    let db1 := { db with ledger_entries := db.ledger_entries ++
      [mkDebitEntry transactionId debitAccount amount assetTypeId now,
       mkCreditEntry transactionId creditAccount amount assetTypeId now] }
    let db2 := updateBalance db1 debitAccount.id debitNewBalance now
    let db3 := updateBalance db2 creditAccount.id creditNewBalance now
    .ok ((debitNewBalance, creditNewBalance), db3)

/-- `checkIdempotency`: return the cached record for a reference whose
expiry lies strictly in the future (`expires_at > NOW()`). -/
def checkIdempotency (db : Db) (referenceId : String) (now : Nat) : Option IdemRecord :=
  db.idempotency_keys.find? (fun k => k.key == referenceId && decide (now < k.expires_at))

/-- `storeIdempotencyResult`: `INSERT ... ON CONFLICT (key) DO NOTHING`,
with the schema default `expires_at = NOW() + INTERVAL '24 hours'`. -/
def storeIdempotencyResult (db : Db) (referenceId : String) (statusCode : Nat)
    (body : Response) (now : Nat) : Db :=
  if db.idempotency_keys.any (fun k => k.key == referenceId) then db
  else { db with idempotency_keys := db.idempotency_keys ++
    [{ key := referenceId, response_status := statusCode, response_body := body,
       created_at := now, expires_at := now + 86400 }] }

/-- The argument object `{ accountId, amount, referenceId, description,
metadata }` of the three flow handlers (metadata kept as its serialized
JSON text). -/
structure FlowArgs where
  accountId : Nat
  amount : ℚ
  referenceId : String
  description : Option String
  metadata : Option String
deriving DecidableEq

/-- The fresh-execution response object shared by the three flows. -/
def mkResponse (txId : Nat) (args : FlowArgs) (ty : TxType) (balanceAfter : ℚ)
    (defaultDescription : String) (now : Nat) : Response :=
  { transactionId := txId, referenceId := args.referenceId, type := ty,
    accountId := args.accountId, amount := args.amount,
    balanceAfter := balanceAfter,
    description := args.description.getD defaultDescription,
    createdAt := now, idempotent := false }

/-- The `transactions` row inserted by a flow. Raises the PostgreSQL
unique-constraint error `23505` when the reference already exists. -/
def insertTransaction (db : Db) (txId : Nat) (ty : TxType) (args : FlowArgs)
    (defaultDescription : String) (now : Nat) : Except Err Db :=
  if db.transactions.any (fun t => t.reference_id == args.referenceId) then
    .error { code := some "23505", statusCode := none }
  else
    .ok { db with transactions := db.transactions ++
      [{ id := txId, type := ty, reference_id := args.referenceId,
         description := args.description.getD defaultDescription,
         metadata := args.metadata.getD "\x7b\x7d", created_at := now }] }

/-- `topUpWallet` (flow 1, `TOP_UP`): treasury debited, user credited.
Idempotency check, treasury resolution (500 when unconfigured), locked
lookup of user and treasury, `ACCOUNT_NOT_FOUND` (404) when the user is
absent, asset-type check throwing a plain 400-status error on mismatch,
transaction insert, double-entry posting, idempotency store. -/
def topUpWallet (db : Db) (args : FlowArgs) (txId now : Nat) :
    Except Err (Response × Db) :=
  match checkIdempotency db args.referenceId now with
  | some cached => .ok ({ cached.response_body with idempotent := true }, db)
  | none =>
    match getAccountByExternalId db "SYSTEM_TREASURY_GOLD" with
    | none => .error { code := none, statusCode := some 500 }
    | some treasury =>
      let locked := getAccountsWithLock db [args.accountId, treasury.id]
      match locked.1.find? (fun a => a.id == args.accountId) with
      | none => .error { code := some "ACCOUNT_NOT_FOUND", statusCode := some 404 }
      | some userAccount =>
        if userAccount.asset_type_id ≠ treasury.asset_type_id then
          .error { code := none, statusCode := some 400 }
        else
          let treasuryLocked := (locked.1.find? (fun a => a.id == treasury.id)).getD treasury
          match insertTransaction locked.2 txId TxType.TOP_UP args "Wallet top-up" now with
          | .error e => .error e
          | .ok db2 =>
            match postDoubleEntry db2 txId treasuryLocked userAccount args.amount
                userAccount.asset_type_id now with
            | .error e => .error e
            | .ok (balances, db3) =>
              let result := mkResponse txId args TxType.TOP_UP balances.2 "Wallet top-up" now
              .ok (result, storeIdempotencyResult db3 args.referenceId 201 result now)

/-- `issueBonus` (flow 2, `BONUS`): bonus pool debited, user credited.
Same shape as `topUpWallet` except that the counterparty is
`SYSTEM_BONUS_GOLD` and the source performs no asset-type check. -/
def issueBonus (db : Db) (args : FlowArgs) (txId now : Nat) :
    Except Err (Response × Db) :=
  match checkIdempotency db args.referenceId now with
  | some cached => .ok ({ cached.response_body with idempotent := true }, db)
  | none =>
    match getAccountByExternalId db "SYSTEM_BONUS_GOLD" with
    | none => .error { code := none, statusCode := some 500 }
    | some bonusPool =>
      let locked := getAccountsWithLock db [args.accountId, bonusPool.id]
      match locked.1.find? (fun a => a.id == args.accountId) with
      | none => .error { code := some "ACCOUNT_NOT_FOUND", statusCode := some 404 }
      | some userAccount =>
        let bonusPoolLocked := (locked.1.find? (fun a => a.id == bonusPool.id)).getD bonusPool
        match insertTransaction locked.2 txId TxType.BONUS args "Bonus issued" now with
        | .error e => .error e
        | .ok db2 =>
          match postDoubleEntry db2 txId bonusPoolLocked userAccount args.amount
              userAccount.asset_type_id now with
          | .error e => .error e
          | .ok (balances, db3) =>
            let result := mkResponse txId args TxType.BONUS balances.2 "Bonus issued" now
            .ok (result, storeIdempotencyResult db3 args.referenceId 201 result now)

/-- `spendCredits` (flow 3, `SPEND`): user debited, revenue credited.
Adds the early sufficient-balance check
(`if (parseFloat(userAccount.balance) < amount)` → `INSUFFICIENT_BALANCE`,
422) before inserting any record; the source performs no asset-type
check in this flow either. -/
def spendCredits (db : Db) (args : FlowArgs) (txId now : Nat) :
    Except Err (Response × Db) :=
  match checkIdempotency db args.referenceId now with
  | some cached => .ok ({ cached.response_body with idempotent := true }, db)
  | none =>
    match getAccountByExternalId db "SYSTEM_REVENUE_GOLD" with
    | none => .error { code := none, statusCode := some 500 }
    | some revenue =>
      let locked := getAccountsWithLock db [args.accountId, revenue.id]
      match locked.1.find? (fun a => a.id == args.accountId) with
      | none => .error { code := some "ACCOUNT_NOT_FOUND", statusCode := some 404 }
      | some userAccount =>
        if userAccount.balance < args.amount then
          .error { code := some "INSUFFICIENT_BALANCE", statusCode := some 422 }
        else
          let revenueLocked := (locked.1.find? (fun a => a.id == revenue.id)).getD revenue
          match insertTransaction locked.2 txId TxType.SPEND args "Credit spend" now with
          | .error e => .error e
          | .ok db2 =>
            match postDoubleEntry db2 txId userAccount revenueLocked args.amount
                userAccount.asset_type_id now with
            | .error e => .error e
            | .ok (balances, db3) =>
              let result := mkResponse txId args TxType.SPEND balances.1 "Credit spend" now
              .ok (result, storeIdempotencyResult db3 args.referenceId 201 result now)

/-- The joined rows of the history query:
`FROM ledger_entries le JOIN transactions t ON t.id = le.transaction_id
WHERE le.account_id = $1 [AND t.type = $n]`. -/
def historyRows (db : Db) (accountId : Nat) (type : Option TxType) :
    List (LedgerEntry × Txn) :=
  (db.ledger_entries.filter (fun le => le.account_id == accountId)).filterMap
    (fun le =>
      (db.transactions.find? (fun t => t.id == le.transaction_id)).bind
        (fun t => if type.all (fun ty => t.type == ty) then some (le, t) else none))

/-- The history rows ordered by `t.created_at DESC` (most recent first). -/
def historySorted (db : Db) (accountId : Nat) (type : Option TxType) :
    List (LedgerEntry × Txn) :=
  (historyRows db accountId type).insertionSort
    (fun x y => y.2.created_at ≤ x.2.created_at)

/-- A user-facing history entry: `amount` is the negation of the stored
journal amount, `balanceAfter` is reported as stored. -/
structure HistoryEntry where
  transactionId : Nat
  type : TxType
  referenceId : String
  description : String
  metadata : String
  amount : ℚ
  balanceAfter : ℚ
  createdAt : Nat
deriving DecidableEq

/-- The mapping applied to each joined row of the history page. -/
def displayEntry (p : LedgerEntry × Txn) : HistoryEntry :=
  { transactionId := p.2.id, type := p.2.type, referenceId := p.2.reference_id,
    description := p.2.description, metadata := p.2.metadata,
    amount := -p.1.amount, balanceAfter := p.1.balance_after,
    createdAt := p.2.created_at }

/-- The page object returned by `getTransactionHistory`. -/
structure HistoryPage where
  accountId : Nat
  total : Nat
  limit : Nat
  offset : Nat
  entries : List HistoryEntry
deriving DecidableEq

/-- `getTransactionHistory`: verifies the account exists and is active
(otherwise `ACCOUNT_NOT_FOUND`, 404), then returns the page
`LIMIT limit OFFSET offset` of the history ordered by transaction
creation time descending, plus the total count over the same filter.
JS defaults: `limit = 20`, `offset = 0`. -/
def getTransactionHistory (db : Db) (accountId : Nat) (limit : Nat := 20)
    (offset : Nat := 0) (type : Option TxType := none) :
    Except Err HistoryPage :=
  if db.accounts.any (fun a => a.id == accountId && a.is_active) then
    .ok { accountId := accountId,
          total := (historyRows db accountId type).length,
          limit := limit, offset := offset,
          entries := (((historySorted db accountId type).drop offset).take limit).map
            displayEntry }
  else .error { code := some "ACCOUNT_NOT_FOUND", statusCode := some 404 }

/-- Model of the Joi `getHistory` schema for the pagination parameters:
`limit` integer, min 1, max 100, default 20; `offset` integer, min 0,
default 0. Returns the validated pair or `none` on a validation error. -/
def getHistoryParams (limit offset : Option Int) : Option (Int × Int) :=
  let l := limit.getD 20
  let o := offset.getD 0
  if 1 ≤ l ∧ l ≤ 100 ∧ 0 ≤ o then some (l, o) else none

/-- The signed ledger-derived balance of an account:
`COALESCE(-SUM(le.amount), 0)` over its journal entries. -/
def ledgerSum (db : Db) (accountId : Nat) : ℚ :=
  -(qsum ((db.ledger_entries.filter (fun le => le.account_id == accountId)).map
      LedgerEntry.amount))

/-- The SQL function `verify_balance_integrity(p_account_id)`: for an
account with a balance-cache row, the cached balance, the ledger-derived
balance, and `ABS(cached - ledger) < 0.00000001`. No row when the
account has no balance-cache row. -/
def verify_balance_integrity (db : Db) (accountId : Nat) :
    Option (ℚ × ℚ × Bool) :=
  (db.account_balances.find? (fun b => b.account_id == accountId)).map
    (fun ab =>
      (ab.balance, ledgerSum db accountId,
        decide (qabs (qsub ab.balance (ledgerSum db accountId)) < mkRat 1 100000000)))

/-- The report object of the audit endpoint. -/
structure IntegrityReport where
  accountId : Nat
  cachedBalance : ℚ
  ledgerBalance : ℚ
  isConsistent : Bool
  discrepancy : ℚ
deriving DecidableEq

/-- `verifyLedgerIntegrity`: wraps `verify_balance_integrity`, raising 404
when it returns no row, and adds
`discrepancy = Math.abs(cached_balance - ledger_balance)`. -/
def verifyLedgerIntegrity (db : Db) (accountId : Nat) :
    Except Err IntegrityReport :=
  match verify_balance_integrity db accountId with
  | none => .error { code := none, statusCode := some 404 }
  | some r =>
    .ok { accountId := accountId, cachedBalance := r.1, ledgerBalance := r.2.1,
          isConsistent := r.2.2, discrepancy := qabs (qsub r.1 r.2.1) }

/-- A database error as seen by `withTransaction`: its `code` property. -/
structure DbErr where
  code : String
deriving DecidableEq

/-- `err.code === '40001' || err.code === '40P01'` — the only two error
codes `withTransaction` retries on. -/
def isRetryable (e : DbErr) : Bool :=
  e.code == "40001" || e.code == "40P01"

/-- `Math.min(50 * Math.pow(2, attempt) + Math.random() * 50, 2000)`:
the backoff delay before re-running the body, with the sampled jitter
passed in explicitly. -/
def backoffDelay (attempt : Nat) (jitter : ℚ) : ℚ :=
  min (qadd (mkRat (50 * 2 ^ attempt) 1) jitter) 2000

/-- The retry loop of `withTransaction`. The body is modelled as a function
of the attempt counter (each re-execution may observe different store
state); `jitter n` is the jitter sampled before the `n`-th re-execution.
Returns the JS return value (`none` models the unreachable
fall-through-to-`undefined` when `maxRetries = 0`) together with the list
of backoff delays slept, in order. -/
def withTransactionGo (f : Nat → Except DbErr α) (jitter : Nat → ℚ)
    (maxRetries attempt : Nat) : Option (Except DbErr α) × List ℚ :=
  if _h : attempt < maxRetries then
    match f attempt with
    | .ok a => (some (.ok a), [])
    | .error e =>
      if isRetryable e && decide (attempt < maxRetries - 1) then
        let d := backoffDelay (attempt + 1) (jitter (attempt + 1))
        let r := withTransactionGo f jitter maxRetries (attempt + 1)
        (r.1, d :: r.2)
      else (some (.error e), [])
  else (none, [])
termination_by maxRetries - attempt
decreasing_by omega

/-- `withTransaction(fn, maxRetries = 3)`: run the body inside a
serializable transaction, retrying on the transient codes only. -/
def withTransaction (f : Nat → Except DbErr α) (jitter : Nat → ℚ)
    (maxRetries : Nat := 3) : Option (Except DbErr α) × List ℚ :=
  withTransactionGo f jitter maxRetries 0

/-- `2 ^ e` as a rational, for an integer exponent. -/
def pow2Q (e : Int) : ℚ :=
  if 0 ≤ e then mkRat ((2 ^ e.toNat : Nat) : Int) 1 else mkRat 1 (2 ^ (-e).toNat)

/-- The binary exponent of a positive rational: the `e` with
`2 ^ e ≤ q < 2 ^ (e + 1)`, searched over `[-100, 100]`, which covers every
magnitude the service handles (amounts between `10⁻⁸` and `10⁷`). -/
def floorLog2 (q : ℚ) : Int :=
  (((List.range 201).map (fun i => (i : Int) - 100)).find?
    (fun e => decide (pow2Q e ≤ q ∧ q < pow2Q (e + 1)))).getD 0

/-- Round a rational to the nearest integer, ties to even — the rounding
mode of IEEE-754 arithmetic. -/
def roundTiesEven (q : ℚ) : Int :=
  let n := q.num.fdiv q.den
  let frac := qsub q (mkRat n 1)
  if frac < mkRat 1 2 then n
  else if mkRat 1 2 < frac then n + 1
  else if n % 2 = 0 then n else n + 1

/-- Model of IEEE-754 binary64 rounding (53-bit significand,
round-to-nearest-even) on the normal range the service's monetary values
occupy. This is the value semantics of a JavaScript `number`, hence of
`parseFloat(...)` and of every arithmetic result in `postDoubleEntry`. -/
def round64Pos (q : ℚ) : ℚ :=
  let e := floorLog2 q
  qmul (mkRat (roundTiesEven (qmul q (pow2Q (52 - e)))) 1) (pow2Q (e - 52))

/-- Model of IEEE-754 binary64 rounding at every sign. -/
def round64 (q : ℚ) : ℚ :=
  if q = 0 then 0
  else if 0 < q then round64Pos q
  else -round64Pos (-q)

/-- JavaScript addition of two `number`s: the exact sum, rounded back to
binary64. -/
def fadd (x y : ℚ) : ℚ := round64 (qadd x y)

/-- `creditNewBalance = parseFloat(creditAccount.balance) + amount` in
`postDoubleEntry`, as executed by the JavaScript engine: the decimal
balance string from the store parses to its nearest binary64 value, the
amount is already a binary64 value, and the sum is rounded again. -/
def creditNewBalanceJS (balance amount : ℚ) : ℚ :=
  fadd (round64 balance) amount

/-- Model of the Joi `amountSchema`: a positive number with at most 8
fractional decimal digits, at most `10,000,000`. -/
def amountSchemaOk (q : ℚ) : Bool :=
  decide (0 < q) && decide ((qmul q (mkRat 100000000 1)).den = 1) &&
    decide (q ≤ 10000000)

/-- Seeded gold treasury system account (`SYSTEM_TREASURY_GOLD`, asset 1). -/
def treasuryGold : Account :=
  { id := 1, external_id := some "SYSTEM_TREASURY_GOLD",
    account_type := AccountType.SYSTEM, name := "Gold Treasury",
    asset_type_id := 1, is_active := true }

/-- Seeded gold revenue system account (`SYSTEM_REVENUE_GOLD`, asset 1). -/
def revenueGold : Account :=
  { id := 2, external_id := some "SYSTEM_REVENUE_GOLD",
    account_type := AccountType.SYSTEM, name := "Gold Revenue",
    asset_type_id := 1, is_active := true }

/-- Seeded gold bonus-pool system account (`SYSTEM_BONUS_GOLD`, asset 1). -/
def bonusPoolGold : Account :=
  { id := 3, external_id := some "SYSTEM_BONUS_GOLD",
    account_type := AccountType.SYSTEM, name := "Gold Bonus Pool",
    asset_type_id := 1, is_active := true }

/-- Seeded user account Alice (gold, asset 1). -/
def aliceAccount : Account :=
  { id := 11, external_id := none, account_type := AccountType.USER,
    name := "Alice", asset_type_id := 1, is_active := true }

/-- Seeded user account Charlie (diamonds, asset 2). -/
def charlieAccount : Account :=
  { id := 13, external_id := none, account_type := AccountType.USER,
    name := "Charlie", asset_type_id := 2, is_active := true }

/-- A deactivated user account, used to exercise the inactive-account
paths. -/
def inactiveAccount : Account :=
  { id := 14, external_id := none, account_type := AccountType.USER,
    name := "Mallory", asset_type_id := 1, is_active := false }

/-- A concrete store mirroring the seed data: Alice = 500 gold,
Charlie = 150 diamonds, system accounts at 0, plus one deactivated
account; empty journal and idempotency store. -/
def seedDb : Db :=
  { accounts := [treasuryGold, revenueGold, bonusPoolGold, aliceAccount,
      charlieAccount, inactiveAccount],
    account_balances :=
      [{ account_id := 1, asset_type_id := 1, balance := 0, version := 0, updated_at := 0 },
       { account_id := 2, asset_type_id := 1, balance := 0, version := 0, updated_at := 0 },
       { account_id := 3, asset_type_id := 1, balance := 0, version := 0, updated_at := 0 },
       { account_id := 11, asset_type_id := 1, balance := 500, version := 0, updated_at := 0 },
       { account_id := 13, asset_type_id := 2, balance := 150, version := 0, updated_at := 0 },
       { account_id := 14, asset_type_id := 1, balance := 0, version := 0, updated_at := 0 }],
    transactions := [], ledger_entries := [], idempotency_keys := [], locks := [] }

/-- The locked join row for Alice in `seedDb`. -/
def aliceRow : AccountRow :=
  { toAccount := aliceAccount, balance := 500, version := 0 }

/-- The locked join row for the gold treasury in `seedDb`. -/
def treasuryGoldRow : AccountRow :=
  { toAccount := treasuryGold, balance := 0, version := 0 }

/-- The locked join row for the gold revenue account in `seedDb`. -/
def revenueGoldRow : AccountRow :=
  { toAccount := revenueGold, balance := 0, version := 0 }

/-- The locked join row for the gold bonus pool in `seedDb`. -/
def bonusPoolGoldRow : AccountRow :=
  { toAccount := bonusPoolGold, balance := 0, version := 0 }

/-- Request arguments crediting Charlie's diamond wallet from the gold
bonus pool — the asset-mismatched bonus request. -/
def bonusMismatchArgs : FlowArgs :=
  { accountId := 13, amount := 25, referenceId := "bonus-mismatch",
    description := none, metadata := none }

/-- Request arguments for a spend by Alice. -/
def spendAliceArgs : FlowArgs :=
  { accountId := 11, amount := 200, referenceId := "spend-alice",
    description := none, metadata := none }

/-- Request arguments for a top-up of Alice. -/
def topUpAliceArgs : FlowArgs :=
  { accountId := 11, amount := 100, referenceId := "r1",
    description := none, metadata := none }

/-- Request arguments for a top-up of Charlie (asset-mismatched against
the gold treasury). -/
def topUpCharlieArgs : FlowArgs :=
  { accountId := 13, amount := 100, referenceId := "r5",
    description := none, metadata := none }

/-- The locked join row for Charlie in `seedDb`. -/
def charlieRow : AccountRow :=
  { toAccount := charlieAccount, balance := 150, version := 0 }

/-- The response body captured in the stored idempotency record below. -/
def replayBody : Response :=
  { transactionId := 90, referenceId := "r1", type := TxType.TOP_UP,
    accountId := 11, amount := 100, balanceAfter := 600,
    description := "Wallet top-up", createdAt := 3, idempotent := false }

/-- A stored idempotency record for reference `r1` (expires at 86403). -/
def replayRecord : IdemRecord :=
  { key := "r1", response_status := 201, response_body := replayBody,
    created_at := 3, expires_at := 86403 }

/-- The seeded store with one live idempotency record. -/
def replayDb : Db := { seedDb with idempotency_keys := [replayRecord] }

/-- A session body that hits a serialization failure on its first attempt
and succeeds on the retry. -/
def wfBody : Nat → Except DbErr Nat :=
  fun n => if n = 0 then .error { code := "40001" } else .ok 7

/-- A fixed sampled jitter of 5 ms for every retry. -/
def wfJitter : Nat → ℚ := fun _ => 5

/-- `≤` on account ids is total, for insertion-sort sortedness. -/
instance : IsTotal AccountRow (fun x y => x.id ≤ y.id) :=
  ⟨fun a b => Nat.le_total a.id b.id⟩

/-- `≤` on account ids is transitive, for insertion-sort sortedness. -/
instance : IsTrans AccountRow (fun x y => x.id ≤ y.id) :=
  ⟨fun _ _ _ => Nat.le_trans⟩

/-- The descending-creation-time order of the history query is total. -/
instance : IsTotal (LedgerEntry × Txn)
    (fun x y => y.2.created_at ≤ x.2.created_at) :=
  ⟨fun a b => Nat.le_total b.2.created_at a.2.created_at⟩

/-- The descending-creation-time order of the history query is
transitive. -/
instance : IsTrans (LedgerEntry × Txn)
    (fun x y => y.2.created_at ≤ x.2.created_at) :=
  ⟨fun _ _ _ h1 h2 => Nat.le_trans h2 h1⟩

/-- A store with one committed top-up and one committed spend for Alice. -/
def historyDb : Db :=
  { seedDb with
    transactions :=
      [{ id := 70, type := TxType.TOP_UP, reference_id := "h1",
         description := "Wallet top-up", metadata := "\x7b\x7d", created_at := 4 },
       { id := 71, type := TxType.SPEND, reference_id := "h2",
         description := "Credit spend", metadata := "\x7b\x7d", created_at := 6 }],
    ledger_entries :=
      [{ transaction_id := 70, account_id := 1, asset_type_id := 1,
         amount := 100, balance_after := -100, created_at := 4 },
       { transaction_id := 70, account_id := 11, asset_type_id := 1,
         amount := -100, balance_after := 600, created_at := 4 },
       { transaction_id := 71, account_id := 11, asset_type_id := 1,
         amount := 30, balance_after := 570, created_at := 6 },
       { transaction_id := 71, account_id := 2, asset_type_id := 1,
         amount := -30, balance_after := -30, created_at := 6 }] }

/-- `qadd` is rational addition. -/
theorem qadd_eq (a b : ℚ) : qadd a b = a + b := (Rat.add_def' a b).symm

/-- `qsub` is rational subtraction. -/
theorem qsub_eq (a b : ℚ) : qsub a b = a - b := (Rat.sub_def' a b).symm

/-- `qmul` is rational multiplication. -/
theorem qmul_eq (a b : ℚ) : qmul a b = a * b := by
  rw [Rat.mul_def, Rat.normalize_eq_mkRat]; rfl

/-- `qabs` is the rational absolute value. -/
theorem qabs_eq (q : ℚ) : qabs q = |q| := by
  unfold qabs
  split
  · exact (abs_of_neg (by assumption)).symm
  · exact (abs_of_nonneg (not_lt.mp (by assumption))).symm

/-- `qsum` is the list sum. -/
theorem qsum_eq (l : List ℚ) : qsum l = l.sum := by
  induction l with
  | nil => rfl
  | cons a l ih => simp [qsum, List.foldr_cons, qadd_eq, ih.symm]

/-- Two successive single-row balance updates on distinct accounts act as
one simultaneous two-row update. -/
theorem updateBalance_updateBalance (db : Db) (i j : Nat) (x y : ℚ) (now : Nat)
    (hij : i ≠ j) :
    updateBalance (updateBalance db i x now) j y now =
      { db with account_balances := db.account_balances.map (fun b =>
          if b.account_id = i then
            { b with balance := x, version := b.version + 1, updated_at := now }
          else if b.account_id = j then
            { b with balance := y, version := b.version + 1, updated_at := now }
          else b) } := by
  simp only [updateBalance, List.map_map]
  congr 1
  apply List.map_congr_left
  intro b _
  by_cases h1 : b.account_id = i
  · simp [Function.comp, h1, hij]
  · by_cases h2 : b.account_id = j
    · simp [Function.comp, h1, h2, Ne.symm hij]
    · simp [Function.comp, h1, h2]

/-- C1. Every non-failing call of the posting engine with debit account
`D`, credit account `C` (distinct rows) and positive magnitude `m`
appends exactly the two journal entries — `+m` with
`balance_after = D.balance - m` on `D`, `-m` with
`balance_after = C.balance + m` on `C`, summing to zero — updates the
cached balances of `D` and `C` to those two values bumping their
versions, and returns the pair `(debit_balance_after,
credit_balance_after)`. The no-error condition is spelled out as the
negation of the `INSUFFICIENT_BALANCE` guard, the only error the engine
raises. -/
theorem postDoubleEntry_spec (db : Db) (txId : Nat) (D C : AccountRow)
    (m : ℚ) (assetId now : Nat) (hm : 0 < m) (hDC : D.id ≠ C.id)
    (hok : ¬(D.account_type = AccountType.USER ∧ D.balance - m < 0)) :
    postDoubleEntry db txId D C m assetId now =
      .ok ((D.balance - m, C.balance + m),
        { db with
          ledger_entries := db.ledger_entries ++
            [mkDebitEntry txId D m assetId now, mkCreditEntry txId C m assetId now],
          account_balances := db.account_balances.map (fun b =>
            if b.account_id = D.id then
              { b with balance := D.balance - m, version := b.version + 1,
                       updated_at := now }
            else if b.account_id = C.id then
              { b with balance := C.balance + m, version := b.version + 1,
                       updated_at := now }
            else b) }) ∧
    (mkDebitEntry txId D m assetId now).amount = m ∧
    (mkDebitEntry txId D m assetId now).balance_after = D.balance - m ∧
    (mkCreditEntry txId C m assetId now).amount = -m ∧
    (mkCreditEntry txId C m assetId now).balance_after = C.balance + m ∧
    (mkDebitEntry txId D m assetId now).amount +
      (mkCreditEntry txId C m assetId now).amount = 0 := by
  refine ⟨?_, by simp [mkDebitEntry], by simp [mkDebitEntry, qsub_eq],
    by simp [mkCreditEntry], by simp [mkCreditEntry, qadd_eq],
    by simp [mkDebitEntry, mkCreditEntry]⟩
  simp only [postDoubleEntry, qsub_eq, qadd_eq]
  rw [if_neg hok, updateBalance_updateBalance _ _ _ _ _ _ hDC]

/-- Witness for C1 at a concrete input: the treasury debited 5, Alice
credited 5, on the seeded store. -/
theorem postDoubleEntry_spec_witness :
    ((0 : ℚ) < 5 ∧ treasuryGoldRow.id ≠ aliceRow.id ∧
      ¬(treasuryGoldRow.account_type = AccountType.USER ∧
        treasuryGoldRow.balance - 5 < 0)) ∧
    (postDoubleEntry seedDb 40 treasuryGoldRow aliceRow 5 1 9).isOk = true := by
  refine ⟨⟨by norm_num, by decide, by decide⟩, ?_⟩
  rw [(postDoubleEntry_spec seedDb 40 treasuryGoldRow aliceRow 5 1 9
    (by norm_num) (by decide) (by decide)).1]
  rfl

/-- C2 counterexample: `issueBonus` performs no asset-type check. On the
seeded store, a bonus request crediting Charlie's diamond wallet from the
gold bonus pool succeeds (balance 175) and inserts one transaction and
two journal entries, instead of failing `ASSET_MISMATCH` before inserting
any record. -/
theorem issueBonus_crossAsset_ok :
    charlieAccount.asset_type_id ≠ bonusPoolGold.asset_type_id ∧
    (issueBonus seedDb bonusMismatchArgs 40 5).map
        (fun q => (q.1.balanceAfter, q.2.transactions.length,
          q.2.ledger_entries.length))
      = Except.ok ((175 : ℚ), 1, 2) := by
  exact ⟨by decide, by decide⟩

/-- C2 as amended: only `topUpWallet` verifies, after locking on an
idempotency miss, that the user account and the resolved treasury share
the same asset type; on mismatch it fails before inserting any
transaction or journal record, with a plain 400-status error carrying no
`ASSET_MISMATCH` code (`issueBonus` and `spendCredits` perform no
asset-type check — see the counterexample). -/
theorem topUpWallet_asset_mismatch (db : Db) (args : FlowArgs) (txId now : Nat)
    (treasury user : AccountRow)
    (hidem : checkIdempotency db args.referenceId now = none)
    (htre : getAccountByExternalId db "SYSTEM_TREASURY_GOLD" = some treasury)
    (huser : (getAccountsWithLock db [args.accountId, treasury.id]).1.find?
        (fun a => a.id == args.accountId) = some user)
    (hne : user.asset_type_id ≠ treasury.asset_type_id) :
    topUpWallet db args txId now = .error { code := none, statusCode := some 400 } := by
  simp only [topUpWallet, hidem, htre, huser]
  rw [if_pos hne]

/-- Witness for the amended C2: topping up Charlie (diamonds) against the
gold treasury on the seeded store fails with the 400-status error. -/
theorem topUpWallet_asset_mismatch_witness :
    (checkIdempotency seedDb "r5" 5 = none ∧
      getAccountByExternalId seedDb "SYSTEM_TREASURY_GOLD" = some treasuryGoldRow ∧
      (getAccountsWithLock seedDb [13, 1]).1.find? (fun a => a.id == 13) =
        some charlieRow ∧
      charlieRow.asset_type_id ≠ treasuryGoldRow.asset_type_id) ∧
    topUpWallet seedDb topUpCharlieArgs 41 5 =
      .error { code := none, statusCode := some 400 } :=
  ⟨⟨by decide, by decide, by decide, by decide⟩,
    topUpWallet_asset_mismatch seedDb topUpCharlieArgs 41 5 treasuryGoldRow
      charlieRow (by decide) (by decide) (by decide) (by decide)⟩

/-- The idempotency store write never touches the balance cache. -/
theorem storeIdempotencyResult_balances (d : Db) (r : String) (s : Nat)
    (b : Response) (n : Nat) :
    (storeIdempotencyResult d r s b n).account_balances = d.account_balances := by
  unfold storeIdempotencyResult
  split <;> rfl

/-- The `|| revenue`-style fallback row keeps the counterparty's id. -/
theorem find?_getD_id (l : List AccountRow) (rev : AccountRow) :
    ((l.find? (fun a => a.id == rev.id)).getD rev).id = rev.id := by
  cases hf : l.find? (fun a => a.id == rev.id) with
  | none => rfl
  | some x => simpa using List.find?_some hf

/-- C3. For a spend request on a USER account (idempotency miss, revenue
account configured, user row locked, reference fresh, distinct
counterparty): an amount at most the current balance succeeds with
`balanceAfter = balance - amount` (zero when they are equal) and leaves
the user's cached balance non-negative, while an amount exceeding the
balance fails with `INSUFFICIENT_BALANCE` (422) — the error return models
the rollback, so no journal entry or balance update survives. -/
theorem spendCredits_spec (db : Db) (args : FlowArgs) (txId now : Nat)
    (rev user : AccountRow)
    (hidem : checkIdempotency db args.referenceId now = none)
    (hrev : getAccountByExternalId db "SYSTEM_REVENUE_GOLD" = some rev)
    (huser : (getAccountsWithLock db [args.accountId, rev.id]).1.find?
        (fun a => a.id == args.accountId) = some user)
    (hkind : user.account_type = AccountType.USER)
    (hfresh : ∀ t ∈ db.transactions, t.reference_id ≠ args.referenceId)
    (hne : user.id ≠ rev.id) :
    (user.balance < args.amount →
      spendCredits db args txId now =
        .error { code := some "INSUFFICIENT_BALANCE", statusCode := some 422 }) ∧
    (args.amount ≤ user.balance →
      ∃ r db', spendCredits db args txId now = .ok (r, db') ∧
        r.balanceAfter = user.balance - args.amount ∧
        0 ≤ r.balanceAfter ∧
        (args.amount = user.balance → r.balanceAfter = 0) ∧
        (∀ b ∈ db'.account_balances, b.account_id = user.id →
          b.balance = user.balance - args.amount ∧ 0 ≤ b.balance)) := by
  have hany : ((getAccountsWithLock db [args.accountId, rev.id]).2.transactions.any
      (fun t => t.reference_id == args.referenceId)) = false := by
    simp only [getAccountsWithLock, List.any_eq_false]
    intro t ht
    simpa using hfresh t ht
  constructor
  · intro hlt
    simp only [spendCredits, hidem, hrev, huser]
    rw [if_pos hlt]
  · intro hle
    have hnlt : ¬(user.balance < args.amount) := not_lt.mpr hle
    simp only [spendCredits, hidem, hrev, huser, insertTransaction, hany,
      Bool.false_eq_true, if_false]
    rw [if_neg hnlt]
    simp only [postDoubleEntry]
    rw [if_neg (by
      rintro ⟨-, hneg⟩
      rw [qsub_eq] at hneg
      exact hnlt (sub_neg.mp hneg))]
    refine ⟨_, _, rfl, ?_, ?_, ?_, ?_⟩
    · simp [mkResponse, qsub_eq]
    · simp only [mkResponse, qsub_eq]
      exact sub_nonneg.mpr hle
    · intro heq
      simp [mkResponse, qsub_eq, heq]
    · intro b hb hbid
      rw [storeIdempotencyResult_balances] at hb
      rw [updateBalance_updateBalance _ _ _ _ _ _
        (by rw [find?_getD_id]; exact hne)] at hb
      simp only [List.mem_map] at hb
      obtain ⟨b0, hb0, rfl⟩ := hb
      by_cases h1 : b0.account_id = user.id
      · simp only [if_pos h1, qsub_eq]
        exact ⟨trivial, sub_nonneg.mpr hle⟩
      · rw [if_neg h1] at hbid ⊢
        by_cases h2 : b0.account_id = (((getAccountsWithLock db
            [args.accountId, rev.id]).1.find? (fun a => a.id == rev.id)).getD rev).id
        · rw [if_pos h2] at hbid
          exact absurd hbid h1
        · rw [if_neg h2] at hbid
          exact absurd hbid h1

/-- A successful transaction insert changes only the `transactions` table. -/
theorem insertTransaction_ok_inv (d : Db) (txId : Nat) (ty : TxType)
    (args : FlowArgs) (dd : String) (now : Nat) (db2 : Db)
    (h : insertTransaction d txId ty args dd now = .ok db2) :
    db2.accounts = d.accounts ∧ db2.account_balances = d.account_balances ∧
      db2.idempotency_keys = d.idempotency_keys ∧ db2.locks = d.locks := by
  unfold insertTransaction at h
  split at h
  · exact Except.noConfusion h
  · injection h with h
    subst h
    exact ⟨rfl, rfl, rfl, rfl⟩

/-- A successful posting changes only the journal and the balance cache. -/
theorem postDoubleEntry_ok_inv (db : Db) (txId : Nat) (D C : AccountRow)
    (m : ℚ) (aid now : Nat) (p : (ℚ × ℚ) × Db)
    (h : postDoubleEntry db txId D C m aid now = .ok p) :
    p.2.accounts = db.accounts ∧ p.2.transactions = db.transactions ∧
      p.2.idempotency_keys = db.idempotency_keys ∧ p.2.locks = db.locks := by
  simp only [postDoubleEntry] at h
  split at h
  · exact Except.noConfusion h
  · injection h with h
    subst h
    exact ⟨rfl, rfl, rfl, rfl⟩

/-- C4. Idempotent replay. (1) When a live idempotency record exists for
the reference at the start of the session, each of the three flows
returns the stored response body with `idempotent: true` and the store is
completely unchanged — no locks acquired, no transaction inserted, no
journal entries appended, no balances changed. (2) Replaying a completed
top-up (fresh reference, replay within the 24 h retention) yields the
original response modulo the `idempotent` flag, with the state unchanged
between the two calls. -/
theorem flows_idempotent_replay (db : Db) (args : FlowArgs)
    (txId txId2 now now2 : Nat) :
    (∀ rec, checkIdempotency db args.referenceId now = some rec →
      topUpWallet db args txId now =
          .ok ({ rec.response_body with idempotent := true }, db) ∧
        issueBonus db args txId now =
          .ok ({ rec.response_body with idempotent := true }, db) ∧
        spendCredits db args txId now =
          .ok ({ rec.response_body with idempotent := true }, db)) ∧
    (∀ r db1, (∀ k ∈ db.idempotency_keys, k.key ≠ args.referenceId) →
      topUpWallet db args txId now = .ok (r, db1) →
      now2 < now + 86400 →
      topUpWallet db1 args txId2 now2 = .ok ({ r with idempotent := true }, db1)) := by
  constructor
  · intro rec h
    refine ⟨?_, ?_, ?_⟩
    · simp [topUpWallet, h]
    · simp [issueBonus, h]
    · simp [spendCredits, h]
  · intro r db1 hkeys hrun hlive
    have hmiss : checkIdempotency db args.referenceId now = none := by
      unfold checkIdempotency
      rw [List.find?_eq_none]
      intro k hk
      simp [hkeys k hk]
    simp only [topUpWallet, hmiss] at hrun
    cases htre : getAccountByExternalId db "SYSTEM_TREASURY_GOLD" with
    | none => rw [htre] at hrun; exact Except.noConfusion hrun
    | some treasury =>
    simp only [htre] at hrun
    cases huser : (getAccountsWithLock db [args.accountId, treasury.id]).1.find?
        (fun a => a.id == args.accountId) with
    | none => rw [huser] at hrun; exact Except.noConfusion hrun
    | some user =>
    simp only [huser] at hrun
    by_cases hasset : user.asset_type_id ≠ treasury.asset_type_id
    · rw [if_pos hasset] at hrun
      exact Except.noConfusion hrun
    · rw [if_neg hasset] at hrun
      cases hins : insertTransaction (getAccountsWithLock db
          [args.accountId, treasury.id]).2 txId TxType.TOP_UP args
          "Wallet top-up" now with
      | error e => rw [hins] at hrun; exact Except.noConfusion hrun
      | ok db2 =>
      simp only [hins] at hrun
      cases hpost : postDoubleEntry db2 txId
          (((getAccountsWithLock db [args.accountId, treasury.id]).1.find?
            (fun a => a.id == treasury.id)).getD treasury) user args.amount
          user.asset_type_id now with
      | error e => rw [hpost] at hrun; exact Except.noConfusion hrun
      | ok p =>
      obtain ⟨balances, db3⟩ := p
      simp only [hpost] at hrun
      rw [Except.ok.injEq, Prod.mk.injEq] at hrun
      obtain ⟨hr, hdb1⟩ := hrun
      have hkeys2 : db2.idempotency_keys = db.idempotency_keys := by
        rw [(insertTransaction_ok_inv _ _ _ _ _ _ _ hins).2.2.1]
        simp [getAccountsWithLock]
      have hkeys3 : db3.idempotency_keys = db.idempotency_keys := by
        rw [(postDoubleEntry_ok_inv _ _ _ _ _ _ _ _ hpost).2.2.1, hkeys2]
      have hstore : (db3.idempotency_keys.any
          (fun k => k.key == args.referenceId)) = false := by
        rw [hkeys3, List.any_eq_false]
        intro k hk
        simp [hkeys k hk]
      have hdb1' : db1 = { db3 with idempotency_keys := db3.idempotency_keys ++
          [{ key := args.referenceId, response_status := 201,
             response_body := mkResponse txId args TxType.TOP_UP balances.2
               "Wallet top-up" now,
             created_at := now, expires_at := now + 86400 }] } := by
        rw [← hdb1]
        unfold storeIdempotencyResult
        rw [if_neg (by rw [hstore]; exact Bool.false_ne_true)]
      have hchk : checkIdempotency db1 args.referenceId now2 =
          some { key := args.referenceId, response_status := 201,
                 response_body := mkResponse txId args TxType.TOP_UP balances.2
                   "Wallet top-up" now,
                 created_at := now, expires_at := now + 86400 } := by
        rw [hdb1']
        unfold checkIdempotency
        simp only [List.find?_append]
        rw [hkeys3]
        have h1 : db.idempotency_keys.find?
            (fun k => k.key == args.referenceId && decide (now2 < k.expires_at)) =
            none := by
          rw [List.find?_eq_none]
          intro k hk
          simp [hkeys k hk]
        rw [h1]
        simp [hlive]
      simp only [topUpWallet, hchk]
      rw [← hr]


/-- Witness for C4: with a live record for `r1` in the store, the top-up
flow replays the stored body tagged `idempotent: true` and leaves the
store untouched. -/
theorem flows_idempotent_replay_witness :
    checkIdempotency replayDb "r1" 10 = some replayRecord ∧
    topUpWallet replayDb topUpAliceArgs 91 10 =
      .ok ({ replayRecord.response_body with idempotent := true }, replayDb) :=
  ⟨by decide,
    ((flows_idempotent_replay replayDb topUpAliceArgs 91 0 10 0).1
      replayRecord (by decide)).1⟩

/-- Witness for C3: Alice (balance 500) spends 200 on the seeded store;
the spend succeeds with balance 300 and her cached balance stays
non-negative. -/
theorem spendCredits_spec_witness :
    (checkIdempotency seedDb "spend-alice" 7 = none ∧
      getAccountByExternalId seedDb "SYSTEM_REVENUE_GOLD" = some revenueGoldRow ∧
      (getAccountsWithLock seedDb [11, 2]).1.find? (fun a => a.id == 11) =
        some aliceRow ∧
      aliceRow.account_type = AccountType.USER ∧
      (∀ t ∈ seedDb.transactions, t.reference_id ≠ "spend-alice") ∧
      aliceRow.id ≠ revenueGoldRow.id ∧
      spendAliceArgs.amount ≤ aliceRow.balance) ∧
    (∃ r db', spendCredits seedDb spendAliceArgs 50 7 = .ok (r, db') ∧
      r.balanceAfter = aliceRow.balance - spendAliceArgs.amount ∧
      0 ≤ r.balanceAfter ∧
      (spendAliceArgs.amount = aliceRow.balance → r.balanceAfter = 0) ∧
      (∀ b ∈ db'.account_balances, b.account_id = aliceRow.id →
        b.balance = aliceRow.balance - spendAliceArgs.amount ∧ 0 ≤ b.balance)) :=
  ⟨⟨by decide, by decide, by decide, by decide, by decide, by decide, by decide⟩,
    (spendCredits_spec seedDb spendAliceArgs 50 7 revenueGoldRow aliceRow
      (by decide) (by decide) (by decide) (by decide) (by decide) (by decide)).2
      (by decide)⟩

/-- A successful balance join keeps the account part of the row. -/
theorem joinBalance_id (db : Db) (a : Account) (row : AccountRow)
    (h : joinBalance db a = some row) : row.toAccount = a := by
  unfold joinBalance at h
  cases hf : db.account_balances.find? (fun b => b.account_id == a.id) with
  | none => rw [hf] at h; exact Option.noConfusion h
  | some b =>
    rw [hf] at h
    injection h with h
    rw [← h]

/-- The ids of the joined rows form a sublist of the ids of the accounts
they were built from. -/
theorem filterMap_joinBalance_ids (db : Db) (l : List Account) :
    ((l.filterMap (joinBalance db)).map (fun r => r.id)).Sublist
      (l.map (fun a => a.id)) := by
  induction l with
  | nil => simp
  | cons a l ih =>
    cases hj : joinBalance db a with
    | none =>
      simp only [List.filterMap_cons, hj, List.map_cons]
      exact ih.cons _
    | some row =>
      simp only [List.filterMap_cons, hj, List.map_cons]
      rw [show row.id = a.id from congrArg Account.id (joinBalance_id db a row hj)]
      exact ih.cons₂ _

/-- Sorting the joined rows of a sub-table of `accounts` keeps their ids
duplicate-free. -/
theorem nodup_ids_insertionSort (db : Db) (l : List Account)
    (h : (db.accounts.map Account.id).Nodup) (hl : l.Sublist db.accounts) :
    (((l.filterMap (joinBalance db)).insertionSort
        (fun x y => x.id ≤ y.id)).map (fun r => r.id)).Nodup := by
  rw [((List.perm_insertionSort (fun x y : AccountRow => x.id ≤ y.id)
      (l.filterMap (joinBalance db))).map (fun r => r.id)).nodup_iff]
  exact h.sublist ((filterMap_joinBalance_ids db l).trans (hl.map _))

/-- C5. `getAccountsWithLock` returns rows sorted in ascending canonical
(id) order without duplicates; every returned row is an active account
whose id was requested; a missing or inactive id never appears in the
result; the balance-row locks are logged exactly in the (ascending)
result order; and `spendCredits` surfaces an absent user account as
`ACCOUNT_NOT_FOUND` (404). -/
theorem getAccountsWithLock_spec (db : Db) (ids : List Nat)
    (hnodup : (db.accounts.map Account.id).Nodup) :
    ((getAccountsWithLock db ids).1.Pairwise (fun x y => x.id ≤ y.id)) ∧
    (((getAccountsWithLock db ids).1.map (fun r => r.id)).Nodup) ∧
    (∀ a ∈ (getAccountsWithLock db ids).1, a.is_active = true ∧ a.id ∈ ids) ∧
    (∀ i, (∀ a ∈ db.accounts, a.id = i → a.is_active = false) →
      ∀ a ∈ (getAccountsWithLock db ids).1, a.id ≠ i) ∧
    ((getAccountsWithLock db ids).2.locks =
      db.locks ++ (getAccountsWithLock db ids).1.map (fun r => r.id)) ∧
    (∀ args txId now rev, checkIdempotency db args.referenceId now = none →
      getAccountByExternalId db "SYSTEM_REVENUE_GOLD" = some rev →
      (∀ a ∈ db.accounts, a.id = args.accountId → a.is_active = false) →
      spendCredits db args txId now =
        .error { code := some "ACCOUNT_NOT_FOUND", statusCode := some 404 }) := by
  have hmem : ∀ (l : List Nat), ∀ a ∈ (getAccountsWithLock db l).1,
      a.toAccount ∈ db.accounts ∧ a.is_active = true ∧ a.id ∈ l := by
    intro l a ha
    simp only [getAccountsWithLock] at ha
    rw [List.mem_insertionSort] at ha
    obtain ⟨acc, hacc, hj⟩ := List.mem_filterMap.mp ha
    obtain ⟨haccmem, hp⟩ := List.mem_filter.mp hacc
    have hta := joinBalance_id db acc a hj
    simp only [Bool.and_eq_true] at hp
    refine ⟨hta ▸ haccmem, ?_, ?_⟩
    · show a.toAccount.is_active = true
      rw [hta]
      exact hp.1
    · have hc : a.id ∈ l.dedup.insertionSort (fun a b => a ≤ b) := by
        rw [show a.id = acc.id from congrArg Account.id hta]
        simpa using hp.2
      rw [List.mem_insertionSort, List.mem_dedup] at hc
      exact hc
  have habs : ∀ (l : List Nat) i,
      (∀ a ∈ db.accounts, a.id = i → a.is_active = false) →
      ∀ a ∈ (getAccountsWithLock db l).1, a.id ≠ i := by
    intro l i hinact a ha hai
    obtain ⟨hmem1, hact, -⟩ := hmem l a ha
    have hfa := hinact a.toAccount hmem1 hai
    rw [hact] at hfa
    exact absurd hfa (by simp)
  refine ⟨?_, ?_, fun a ha => (hmem ids a ha).2, habs ids, rfl, ?_⟩
  · exact List.sorted_insertionSort _ _
  · simp only [getAccountsWithLock]
    exact nodup_ids_insertionSort db _ hnodup (List.filter_sublist _)
  · intro args txId now rev hidem hrev hinact
    simp only [spendCredits, hidem, hrev]
    have hnone : (getAccountsWithLock db [args.accountId, rev.id]).1.find?
        (fun a => a.id == args.accountId) = none := by
      rw [List.find?_eq_none]
      intro a ha
      simpa using habs _ args.accountId hinact a ha
    simp only [hnone]

/-- Witness for C5: locking `[11, 2, 11]` on the seeded store (Alice and
the revenue account, with a duplicate) logs exactly the deduplicated
ascending lock order. -/
theorem getAccountsWithLock_spec_witness :
    (seedDb.accounts.map Account.id).Nodup ∧
    ((getAccountsWithLock seedDb [11, 2, 11]).2.locks =
      seedDb.locks ++ (getAccountsWithLock seedDb [11, 2, 11]).1.map
        (fun r => r.id)) :=
  ⟨by decide, (getAccountsWithLock_spec seedDb [11, 2, 11] (by decide)).2.2.2.2.1⟩

/-- One step of the retry loop: the body succeeds. -/
theorem withTransactionGo_ok {α : Type} (f : Nat → Except DbErr α)
    (j : Nat → ℚ) (m k : Nat) (a : α) (hk : k < m) (h : f k = .ok a) :
    withTransactionGo f j m k = (some (.ok a), []) := by
  rw [withTransactionGo, dif_pos hk, h]

/-- One step of the retry loop: the body fails and the loop gives up
(non-retryable code, or no attempts left). -/
theorem withTransactionGo_stop {α : Type} (f : Nat → Except DbErr α)
    (j : Nat → ℚ) (m k : Nat) (e : DbErr) (hk : k < m) (h : f k = .error e)
    (hstop : (isRetryable e && decide (k < m - 1)) = false) :
    withTransactionGo f j m k = (some (.error e), []) := by
  rw [withTransactionGo, dif_pos hk, h]
  dsimp only
  rw [if_neg (by simp [hstop])]

/-- One step of the retry loop: the body fails with a transient code and
the loop sleeps the backoff delay, then re-executes. -/
theorem withTransactionGo_retry {α : Type} (f : Nat → Except DbErr α)
    (j : Nat → ℚ) (m k : Nat) (e : DbErr) (hk : k < m) (h : f k = .error e)
    (hr : (isRetryable e && decide (k < m - 1)) = true) :
    withTransactionGo f j m k =
      ((withTransactionGo f j m (k + 1)).1,
        backoffDelay (k + 1) (j (k + 1)) :: (withTransactionGo f j m (k + 1)).2) := by
  rw [withTransactionGo, dif_pos hk, h]
  dsimp only
  rw [if_pos hr]

/-- C6. With the default `maxRetries = 3`, `withTransaction` re-executes
the body only on the two transient codes (`40001`, `40P01`): a first-try
success or a non-retryable first error returns at once with no backoff; a
transient error re-executes the body after sleeping
`min(50·2^attempt + jitter, 2000)` ms; a non-retryable error after a
retry still propagates unchanged (the error value is the body's own); and
after three transient failures the third error propagates with exactly
two backoff sleeps. -/
theorem withTransaction_spec {α : Type} (f : Nat → Except DbErr α)
    (j : Nat → ℚ) :
    (∀ a, f 0 = .ok a → withTransaction f j = (some (.ok a), [])) ∧
    (∀ e, f 0 = .error e → isRetryable e = false →
      withTransaction f j = (some (.error e), [])) ∧
    (∀ e a, f 0 = .error e → isRetryable e = true → f 1 = .ok a →
      withTransaction f j = (some (.ok a), [backoffDelay 1 (j 1)])) ∧
    (∀ e0 e1, f 0 = .error e0 → isRetryable e0 = true → f 1 = .error e1 →
      isRetryable e1 = false →
      withTransaction f j = (some (.error e1), [backoffDelay 1 (j 1)])) ∧
    (∀ e0 e1 e2, f 0 = .error e0 → isRetryable e0 = true → f 1 = .error e1 →
      isRetryable e1 = true → f 2 = .error e2 →
      withTransaction f j = (some (.error e2),
        [backoffDelay 1 (j 1), backoffDelay 2 (j 2)])) ∧
    (∀ n jit, backoffDelay n jit = min (50 * 2 ^ n + jit) 2000) := by
  refine ⟨?_, ?_, ?_, ?_, ?_, ?_⟩
  · intro a h0
    exact withTransactionGo_ok f j 3 0 a (by norm_num) h0
  · intro e h0 hnr
    exact withTransactionGo_stop f j 3 0 e (by norm_num) h0 (by simp [hnr])
  · intro e a h0 hr h1
    rw [withTransaction, withTransactionGo_retry f j 3 0 e (by norm_num) h0
      (by simp [hr]), withTransactionGo_ok f j 3 1 a (by norm_num) h1]
  · intro e0 e1 h0 hr0 h1 hnr1
    rw [withTransaction, withTransactionGo_retry f j 3 0 e0 (by norm_num) h0
      (by simp [hr0]), withTransactionGo_stop f j 3 1 e1 (by norm_num) h1
      (by simp [hnr1])]
  · intro e0 e1 e2 h0 hr0 h1 hr1 h2
    rw [withTransaction, withTransactionGo_retry f j 3 0 e0 (by norm_num) h0
      (by simp [hr0]), withTransactionGo_retry f j 3 1 e1 (by norm_num) h1
      (by simp [hr1]), withTransactionGo_stop f j 3 2 e2 (by norm_num) h2
      (by simp)]
  · intro n jit
    unfold backoffDelay
    rw [qadd_eq, Rat.mkRat_one]
    push_cast
    ring_nf

/-- Witness for C6: a `40001` on the first attempt followed by success
retries exactly once, sleeping one backoff delay. -/
theorem withTransaction_spec_witness :
    (wfBody 0 = .error { code := "40001" } ∧
      isRetryable { code := "40001" } = true ∧ wfBody 1 = .ok 7) ∧
    withTransaction wfBody wfJitter =
      (some (.ok 7), [backoffDelay 1 (wfJitter 1)]) :=
  ⟨⟨rfl, rfl, rfl⟩,
    (withTransaction_spec wfBody wfJitter).2.2.1 { code := "40001" } 7 rfl rfl rfl⟩

/-- Every joined history row is a journal entry of the queried account. -/
theorem historyRows_mem (db : Db) (accountId : Nat) (type : Option TxType)
    (p : LedgerEntry × Txn) (hp : p ∈ historyRows db accountId type) :
    p.1 ∈ db.ledger_entries ∧ p.1.account_id = accountId := by
  unfold historyRows at hp
  obtain ⟨le, hle, hbind⟩ := List.mem_filterMap.mp hp
  obtain ⟨hlemem, hleacc⟩ := List.mem_filter.mp hle
  cases hf : db.transactions.find? (fun t => t.id == le.transaction_id) with
  | none => rw [hf] at hbind; exact Option.noConfusion hbind
  | some t =>
    rw [hf] at hbind
    dsimp only [Option.bind] at hbind
    split at hbind
    · injection hbind with hbind
      rw [← hbind]
      exact ⟨hlemem, by simpa using hleacc⟩
    · exact Option.noConfusion hbind

/-- C7. For an active account, the history query returns the page of the
joined journal rows ordered by transaction creation time descending,
paginated as `drop offset / take limit`, together with the total count
over the same filter; each returned entry's user-facing amount is the
negation of the stored journal amount and `balance_after` is reported as
stored; the Joi schema accepts only `1 ≤ limit ≤ 100` and `offset ≥ 0`,
with defaults `limit = 20` and `offset = 0`. -/
theorem getTransactionHistory_spec (db : Db) (accountId limit offset : Nat)
    (type : Option TxType)
    (h : (db.accounts.any (fun a => a.id == accountId && a.is_active)) = true) :
    (∃ page, getTransactionHistory db accountId limit offset type = .ok page ∧
      page.accountId = accountId ∧ page.limit = limit ∧ page.offset = offset ∧
      page.total = (historyRows db accountId type).length ∧
      page.entries.length ≤ limit ∧
      (∃ s : List (LedgerEntry × Txn), s.Perm (historyRows db accountId type) ∧
        s.Pairwise (fun x y => y.2.created_at ≤ x.2.created_at) ∧
        page.entries = ((s.drop offset).take limit).map displayEntry) ∧
      (∀ e ∈ page.entries, ∃ le ∈ db.ledger_entries,
        le.account_id = accountId ∧ e.amount = -le.amount ∧
        e.balanceAfter = le.balance_after)) ∧
    (∀ lo oo p, getHistoryParams lo oo = some p →
      1 ≤ p.1 ∧ p.1 ≤ 100 ∧ 0 ≤ p.2) ∧
    getHistoryParams none none = some (20, 0) := by
  refine ⟨?_, ?_, by decide⟩
  · simp only [getTransactionHistory]
    rw [if_pos h]
    refine ⟨_, rfl, rfl, rfl, rfl, rfl, ?_, ?_, ?_⟩
    · simp only [List.length_map, List.length_take]
      exact Nat.min_le_left _ _
    · exact ⟨historySorted db accountId type,
        List.perm_insertionSort _ _, List.sorted_insertionSort _ _, rfl⟩
    · intro e he
      obtain ⟨p, hp, rfl⟩ := List.mem_map.mp he
      have hp2 := List.mem_of_mem_drop (List.mem_of_mem_take hp)
      rw [historySorted, List.mem_insertionSort] at hp2
      obtain ⟨hmem, hacc⟩ := historyRows_mem db accountId type p hp2
      exact ⟨p.1, hmem, hacc, rfl, rfl⟩
  · intro lo oo p hp
    simp only [getHistoryParams] at hp
    split at hp
    · injection hp with hp
      subst hp
      exact (by assumption)
    · exact Option.noConfusion hp

/-- Witness for C7: Alice's history on a store with one top-up and one
spend committed. -/
theorem getTransactionHistory_spec_witness :
    ((historyDb.accounts.any (fun a => a.id == 11 && a.is_active)) = true) ∧
    (∃ page, getTransactionHistory historyDb 11 20 0 none = .ok page ∧
      page.total = (historyRows historyDb 11 none).length ∧
      page.entries.length ≤ 20) := by
  refine ⟨by decide, ?_⟩
  obtain ⟨page, hok, -, -, -, htot, hlen, -, -⟩ :=
    (getTransactionHistory_spec historyDb 11 20 0 none (by decide)).1
  exact ⟨page, hok, htot, hlen⟩

/-- C10. The history query, although read-only, verifies first that the
requested account exists and is active, and raises `ACCOUNT_NOT_FOUND`
(404) for a missing or inactive account before reading any journal
entries. -/
theorem getTransactionHistory_not_found (db : Db)
    (accountId limit offset : Nat) (type : Option TxType)
    (h : ∀ a ∈ db.accounts, a.id = accountId → a.is_active = false) :
    getTransactionHistory db accountId limit offset type =
      .error { code := some "ACCOUNT_NOT_FOUND", statusCode := some 404 } := by
  unfold getTransactionHistory
  rw [if_neg (by
    intro hc
    obtain ⟨a, ha, hab⟩ := List.any_eq_true.mp hc
    simp only [Bool.and_eq_true, beq_iff_eq] at hab
    have := h a ha hab.1
    rw [hab.2] at this
    exact absurd this (by simp))]

/-- Witness for C10: the deactivated account 14 of the seeded store gets
a 404 from the history query even though journal entries exist. -/
theorem getTransactionHistory_not_found_witness :
    (∀ a ∈ historyDb.accounts, a.id = 14 → a.is_active = false) ∧
    getTransactionHistory historyDb 14 20 0 none =
      .error { code := some "ACCOUNT_NOT_FOUND", statusCode := some 404 } :=
  ⟨by decide, getTransactionHistory_not_found historyDb 14 20 0 none (by decide)⟩

/-- C8. For every account with a balance-cache row, the audit recomputes
the negated sum of that account's journal amounts, reports the raw
discrepancy `|cached - ledger|`, and reports `is_consistent` exactly when
the absolute difference is below `10⁻⁸`; with no journal entries the
recomputed ledger balance is `0`. -/
theorem verifyLedgerIntegrity_spec (db : Db) (accountId : Nat)
    (ab : BalanceRow)
    (h : db.account_balances.find? (fun b => b.account_id == accountId) =
      some ab) :
    ∃ rep, verifyLedgerIntegrity db accountId = .ok rep ∧
      rep.cachedBalance = ab.balance ∧
      rep.ledgerBalance = ledgerSum db accountId ∧
      rep.discrepancy = |ab.balance - ledgerSum db accountId| ∧
      (rep.isConsistent = true ↔
        |ab.balance - ledgerSum db accountId| < 1 / 100000000) ∧
      (db.ledger_entries.filter (fun le => le.account_id == accountId) = [] →
        ledgerSum db accountId = 0) := by
  simp only [verifyLedgerIntegrity, verify_balance_integrity, h,
    Option.map_some']
  refine ⟨_, rfl, rfl, rfl, ?_, ?_, ?_⟩
  · rw [qabs_eq, qsub_eq]
  · rw [decide_eq_true_iff, qabs_eq, qsub_eq, Rat.mkRat_eq_div]
    norm_num
  · intro hempt
    unfold ledgerSum
    rw [hempt]
    simp [qsum]

/-- Witness for C8: auditing the revenue account of the seeded store
(balance row present, empty journal). -/
theorem verifyLedgerIntegrity_spec_witness :
    (seedDb.account_balances.find? (fun b => b.account_id == 2) =
      some { account_id := 2, asset_type_id := 1, balance := 0, version := 0,
             updated_at := 0 }) ∧
    (∃ rep, verifyLedgerIntegrity seedDb 2 = .ok rep ∧
      rep.ledgerBalance = ledgerSum seedDb 2 ∧
      (rep.isConsistent = true ↔
        |(0 : ℚ) - ledgerSum seedDb 2| < 1 / 100000000)) := by
  refine ⟨by decide, ?_⟩
  obtain ⟨rep, hok, -, hled, -, hiff, -⟩ :=
    verifyLedgerIntegrity_spec seedDb 2
      { account_id := 2, asset_type_id := 1, balance := 0, version := 0,
        updated_at := 0 } (by decide)
  exact ⟨rep, hok, hled, hiff⟩

/-- C9, failing input for the code_bug. The Joi schema admits the amount
`0.2`, yet the balance arithmetic of `postDoubleEntry` — JavaScript
`number` arithmetic, modelled by binary64 rounding — computes
`parseFloat("0.1") + 0.2` as `5404319552844596 / 2^54`
(`0.30000000000000004...`), not the exact decimal `3/10`: the stored
`balance_after` suffers binary-float rounding, contradicting the spec's
exact-decimal requirement. -/
theorem parseFloat_rounding_bug :
    amountSchemaOk (mkRat 1 5) = true ∧
    round64 (mkRat 1 10) = mkRat 3602879701896397 (2 ^ 55) ∧
    round64 (mkRat 1 5) = mkRat 3602879701896397 (2 ^ 54) ∧
    creditNewBalanceJS (mkRat 1 10) (round64 (mkRat 1 5)) =
      mkRat 5404319552844596 (2 ^ 54) ∧
    creditNewBalanceJS (mkRat 1 10) (round64 (mkRat 1 5)) ≠ mkRat 3 10 := by
  decide
